import Mathlib

/-!
Shallow embedding of the bar-chart animation script `src/anim.py` of the
repository `bitjungle/elektrisk_energi_grenland`, together with proofs of
the specified properties of its frame-timing and bar-growth algorithm.

The script has two components with algorithmic content:

* `read_and_prepare_data` (anim.py lines 39-54): reads a spreadsheet and
  sorts the resulting table ascending by a numeric column (delegated to
  the pandas library).
* `animate` (anim.py lines 56-100): the per-frame callback.  Given a frame
  number, it computes for every record a bar length and a bar color, and
  an axis maximum, and commits them to the drawing surface.

Rendering, spreadsheet parsing and video encoding are external services;
only the pure per-frame state computation is embedded here.  Python's
exact (int/int) arithmetic on these inputs is modelled with ℚ; a frame
number is a ℕ.
-/

/-- A row of the two-column table read by `read_and_prepare_data`
(columns `Bedrift` and `MWh`): a company name and its energy value. -/
structure Record where
  bedrift : String
  mwh : ℚ
deriving Repr, DecidableEq

/-- Module constant `TOTAL_DURATION = 60` (anim.py line 22): seconds of
the main animation. -/
def TOTAL_DURATION : ℚ := 60

/-- Module constant `HOLD_DURATION = 3` (anim.py line 23): seconds the
last frame is held. -/
def HOLD_DURATION : ℚ := 3

/-- Module constant `FPS = 50` (anim.py line 24): frames per second. -/
def FPS : ℚ := 50

/-- Module constant `RED_LIMIT = 3` (anim.py line 26): how many of the
top bars are colored red.  A Python int, so modelled as ℤ. -/
def RED_LIMIT : ℤ := 3

/-- The bar length the loop body of `animate` (anim.py lines 77, 84-90)
computes for the record at 0-based index `i` with value `val`, in a
dataset of size `n`, at elapsed time `elapsed` seconds.  `T` is the
module constant `TOTAL_DURATION`; the loop body reads it from module
scope, here it is a parameter so that the specified properties can be
stated for every duration. -/
def barLength (T : ℚ) (n : ℕ) (i : ℕ) (val : ℚ) (elapsed : ℚ) : ℚ :=
  let start_time : ℚ := (T / n) * i
  if elapsed ≥ start_time then
    let growth_time := elapsed - start_time
    let growth_duration := T / n
    let growth_phase := min (growth_time / growth_duration) 1
    val * growth_phase
  else 0

/-- The bar color the loop body of `animate` (anim.py lines 79-82)
assigns to index `i` in a dataset of size `n`: red for the last
`redLimit` indices (Python evaluates `i >= len(df) - RED_LIMIT` over int,
so the subtraction is over ℤ), skyblue otherwise. -/
def barColor (n : ℕ) (redLimit : ℤ) (i : ℕ) : String :=
  if (i : ℤ) ≥ (n : ℤ) - redLimit then "red" else "skyblue"

/-- The list `bar_lengths` built by the loop of `animate` (anim.py lines
75-90) at frame `frameNum`: one length per record, in dataset order,
with `elapsed_time = frame_num / FPS` (line 67).  `vals` is the column
`df[DATA_COL_ENERGY]` in the dataset's order. -/
def animateBarLengths (T fps : ℚ) (vals : List ℚ) (frameNum : ℕ) : List ℚ :=
  let elapsed_time : ℚ := (frameNum : ℚ) / fps
  vals.enum.map fun p => barLength T vals.length p.1 p.2 elapsed_time

/-- The list `bar_colors` built by the loop of `animate` (anim.py lines
74-82) for a dataset of size `n`: it depends only on the index, not on
the frame number or the values. -/
def animateBarColors (redLimit : ℤ) (n : ℕ) : List String :=
  (List.range n).map (barColor n redLimit)

/-- `max(bar_lengths) if bar_lengths else 0` (anim.py line 93): the
maximum of a nonempty list, 0 for the empty list. -/
def currentMax (l : List ℚ) : ℚ :=
  match l with
  | [] => 0
  | x :: xs => xs.foldl max x

/-- The pure frame state `animate` (anim.py lines 56-95) commits to the
drawing surface at frame `frameNum`: the bar lengths, the bar colors and
the axis maximum.  Mirrors the source faithfully: `elapsed_time` is
computed from the UNCLAMPED frame number (line 67) before `frame_num` is
clamped to `totalFrames` (lines 68-69), and the clamped value is never
read again. -/
def animateFrame (T fps : ℚ) (redLimit : ℤ) (df : List Record)
    (frameNum : ℕ) (totalFrames : ℕ) : List ℚ × List String × ℚ :=
  let elapsed_time : ℚ := (frameNum : ℚ) / fps
  let frame_num := if frameNum > totalFrames then totalFrames else frameNum
  let bar_lengths :=
    (df.map Record.mwh).enum.map fun p => barLength T df.length p.1 p.2 elapsed_time
  let bar_colors := (List.range df.length).map (barColor df.length redLimit)
  (bar_lengths, bar_colors, currentMax bar_lengths)

/-- The same frame-state computation with the clamp of anim.py lines
68-69 removed; used to state that the clamp has no effect on the
computed state. -/
def animateFrameNoClamp (T fps : ℚ) (redLimit : ℤ) (df : List Record)
    (frameNum : ℕ) (totalFrames : ℕ) : List ℚ × List String × ℚ :=
  let elapsed_time : ℚ := (frameNum : ℚ) / fps
  let bar_lengths :=
    (df.map Record.mwh).enum.map fun p => barLength T df.length p.1 p.2 elapsed_time
  let bar_colors := (List.range df.length).map (barColor df.length redLimit)
  (bar_lengths, bar_colors, currentMax bar_lengths)

/-! ### Checked model

Python raises on division by zero and on the maximum of an empty
sequence.  To state that the empty-dataset case raises no error, the
frame computation is repeated in an `Except` monad where those two
partial operations are explicit. -/

/-- Python division `a / b`: raises ZeroDivisionError when `b = 0`. -/
def pyDiv (a b : ℚ) : Except String ℚ :=
  if b = 0 then Except.error "ZeroDivisionError" else Except.ok (a / b)

/-- Python `max(l)` on a list: raises ValueError on the empty list. -/
def pyMax (l : List ℚ) : Except String ℚ :=
  match l with
  | [] => Except.error "ValueError: max arg is an empty sequence"
  | x :: xs => Except.ok (xs.foldl max x)

/-- The loop body of `animate` (anim.py lines 77, 84-90) with every
division checked: `start_time` needs `T / len(df)` (line 77), and in the
growing branch `growth_duration = T / len(df)` (line 86) and the phase
quotient (line 87) are further divisions. -/
def barLengthChecked (T : ℚ) (n : ℕ) (i : ℕ) (val : ℚ) (elapsed : ℚ) :
    Except String ℚ := do
  let q ← pyDiv T (n : ℚ)
  let start_time := q * i
  if elapsed ≥ start_time then
    let growth_time := elapsed - start_time
    let growth_duration ← pyDiv T (n : ℚ)
    let growth_phase_raw ← pyDiv growth_time growth_duration
    pure (val * min growth_phase_raw 1)
  else
    pure 0

/-- The frame-state computation of `animate` (anim.py lines 56-95) in
the checked model: the loop body (and its divisions by `len(df)`) runs
once per record, so on an empty dataset it never runs, and the axis
maximum `max(bar_lengths) if bar_lengths else 0` (line 93) only calls
`max` on a nonempty list. -/
def animateChecked (T fps : ℚ) (redLimit : ℤ) (df : List Record)
    (frameNum : ℕ) (totalFrames : ℕ) : Except String (List ℚ × List String × ℚ) := do
  let elapsed_time ← pyDiv (frameNum : ℚ) fps
  let _frame_num := if frameNum > totalFrames then totalFrames else frameNum
  let bar_lengths ← (df.map Record.mwh).enum.mapM fun p =>
    barLengthChecked T df.length p.1 p.2 elapsed_time
  let bar_colors := (List.range df.length).map (barColor df.length redLimit)
  let current_max ← if bar_lengths.isEmpty then pure 0 else pyMax bar_lengths
  pure (bar_lengths, bar_colors, current_max)

/-! ### Helper lemmas -/

/-- Indexing into the bar-length list: entry `i` is `barLength` at index
`i` with the value at index `i`, or the default out of range. -/
lemma animateBarLengths_getD (T fps : ℚ) (vals : List ℚ) (f i : ℕ) :
    (animateBarLengths T fps vals f).getD i 0 =
      if h : i < vals.length
      then barLength T vals.length i vals[i] ((f : ℚ) / fps)
      else 0 := by
  simp only [animateBarLengths]
  rw [List.getD_eq_getElem?_getD, List.getElem?_map, List.getElem?_enum]
  by_cases h : i < vals.length
  · rw [List.getElem?_eq_getElem h]
    simp [h]
  · rw [List.getElem?_eq_none (le_of_not_lt h)]
    simp [h]

/-- `barLength` is nonnegative when the value and schedule are. -/
lemma barLength_nonneg (T : ℚ) (n i : ℕ) (val elapsed : ℚ)
    (hd : 0 < T / n) (hval : 0 ≤ val) :
    0 ≤ barLength T n i val elapsed := by
  simp only [barLength]
  split
  · next h =>
    exact mul_nonneg hval (le_min (div_nonneg (sub_nonneg.mpr h) hd.le) zero_le_one)
  · exact le_refl 0

/-- `barLength` never exceeds the record's value. -/
lemma barLength_le_val (T : ℚ) (n i : ℕ) (val elapsed : ℚ)
    (hval : 0 ≤ val) :
    barLength T n i val elapsed ≤ val := by
  simp only [barLength]
  split
  · calc val * min ((elapsed - T / n * i) / (T / n)) 1
        ≤ val * 1 := mul_le_mul_of_nonneg_left (min_le_right _ 1) hval
      _ = val := mul_one val
  · exact hval

/-- Once the elapsed time reaches the record's start time plus the
growth duration, `barLength` saturates at the record's full value. -/
lemma barLength_saturate (T : ℚ) (n i : ℕ) (val elapsed : ℚ)
    (hd : 0 < T / n) (h : T / n * i + T / n ≤ elapsed) :
    barLength T n i val elapsed = val := by
  have hstart : T / n * i ≤ elapsed := le_trans (by linarith) h
  simp only [barLength]
  rw [if_pos hstart]
  rw [min_eq_right ((one_le_div hd).mpr (by linarith))]
  exact mul_one val

/-- `barLength` is monotone in the elapsed time. -/
lemma barLength_mono (T : ℚ) (n i : ℕ) (val : ℚ) {e1 e2 : ℚ}
    (hd : 0 < T / n) (hval : 0 ≤ val) (h : e1 ≤ e2) :
    barLength T n i val e1 ≤ barLength T n i val e2 := by
  simp only [barLength]
  by_cases h1 : e1 ≥ T / n * i
  · rw [if_pos h1, if_pos (le_trans h1 h)]
    refine mul_le_mul_of_nonneg_left (min_le_min ?_ le_rfl) hval
    exact (div_le_div_right hd).mpr (by linarith)
  · rw [if_neg h1]
    by_cases h2 : e2 ≥ T / n * i
    · rw [if_pos h2]
      exact mul_nonneg hval (le_min (div_nonneg (sub_nonneg.mpr h2) hd.le) zero_le_one)
    · rw [if_neg h2]

/-- At any frame whose elapsed time has reached the full duration `T`,
every bar is fully grown: the bar-length list is the value list itself. -/
lemma animateBarLengths_saturated (T fps : ℚ) (vals : List ℚ) (g : ℕ)
    (hT : 0 < T) (hn : 0 < vals.length) (hg : T ≤ (g : ℚ) / fps) :
    animateBarLengths T fps vals g = vals := by
  have hnq : (0 : ℚ) < (vals.length : ℚ) := by exact_mod_cast hn
  have hd : 0 < T / (vals.length : ℚ) := div_pos hT hnq
  simp only [animateBarLengths]
  have : ∀ p ∈ vals.enum,
      barLength T vals.length p.1 p.2 ((g : ℚ) / fps) = Prod.snd p := by
    rw [List.forall_mem_enum]
    intro i hi
    apply barLength_saturate _ _ _ _ _ hd
    have hle : ((i : ℚ) + 1) ≤ (vals.length : ℚ) := by exact_mod_cast hi
    have : T / vals.length * i + T / vals.length
        = T / vals.length * ((i : ℚ) + 1) := by ring
    rw [this]
    calc T / (vals.length : ℚ) * ((i : ℚ) + 1)
        ≤ T / (vals.length : ℚ) * (vals.length : ℚ) :=
          mul_le_mul_of_nonneg_left hle hd.le
      _ = T := div_mul_cancel₀ T hnq.ne'
      _ ≤ (g : ℚ) / fps := hg
  rw [List.map_congr_left this, List.enum_map_snd]

/-! ### Claims -/

/-- C1: the frame sequencer assigns record `i` the bar length 0 when
`f / r` is below the start time `(T / n) * i`, and otherwise
`value(i) * min(((f / r) - (T / n) * i) / (T / n), 1)`; and on the
sorted example dataset `[10, 20, 30]` with `T = 30`, `n = 3`, `r = 1`,
frame 25 yields exactly the lengths `[10, 20, 15]`. -/
theorem frame_sequencer_formula_and_example :
    (∀ (T fps : ℚ) (n i : ℕ) (val : ℚ) (f : ℕ),
      barLength T n i val ((f : ℚ) / fps) =
        if (f : ℚ) / fps < (T / n) * i then 0
        else val * min (((f : ℚ) / fps - (T / n) * i) / (T / n)) 1)
    ∧ animateBarLengths 30 1 [10, 20, 30] 25 = [10, 20, 15] := by
  constructor
  · intro T fps n i val f
    simp only [barLength]
    by_cases h : (f : ℚ) / fps < (T / n) * i
    · rw [if_pos h, if_neg (by rw [ge_iff_le, not_le]; exact h)]
    · rw [if_neg h, if_pos (by rw [ge_iff_le]; exact not_lt.mp h)]
  · norm_num [animateBarLengths, barLength, List.enum, List.enumFrom]

/-- C2: for fixed record index `i`, nonnegative values and frames
`f1 ≤ f2`, the bar length at `f1` is at most the bar length at `f2`:
growth is monotonically non-decreasing in the frame index. -/
theorem growth_monotone_in_frame (T fps : ℚ) (vals : List ℚ) (f1 f2 i : ℕ)
    (hT : 0 < T) (hfps : 0 < fps) (hn : 0 < vals.length)
    (hvals : ∀ v ∈ vals, 0 ≤ v) (hf : f1 ≤ f2) :
    (animateBarLengths T fps vals f1).getD i 0 ≤
      (animateBarLengths T fps vals f2).getD i 0 := by
  rw [animateBarLengths_getD, animateBarLengths_getD]
  by_cases h : i < vals.length
  · rw [dif_pos h, dif_pos h]
    have hnq : (0 : ℚ) < (vals.length : ℚ) := by exact_mod_cast hn
    refine barLength_mono T vals.length i _ (div_pos hT hnq)
      (hvals _ (vals.getElem_mem h)) ?_
    have : (f1 : ℚ) ≤ (f2 : ℚ) := by exact_mod_cast hf
    exact (div_le_div_iff_of_pos_right hfps).mpr this
  · rw [dif_neg h, dif_neg h]

/-- C2 witness: concrete instance of the monotonicity theorem. -/
theorem growth_monotone_in_frame_witness :
    (animateBarLengths 1 1 [1] 0).getD 0 0 ≤ (animateBarLengths 1 1 [1] 1).getD 0 0 :=
  growth_monotone_in_frame 1 1 [1] 0 1 0 (by norm_num) (by norm_num)
    (by norm_num)
    (by intro v hv; rw [List.mem_singleton] at hv; rw [hv]; norm_num)
    (by norm_num)

/-- C3: for every frame index strictly beyond `total_frames = T * r`,
the bar lengths are exactly those of frame `total_frames`: the final
frame is held. -/
theorem frame_clamp_holds_final (T fps : ℚ) (vals : List ℚ)
    (totalFrames f : ℕ)
    (hT : 0 < T) (hfps : 0 < fps) (hn : 0 < vals.length)
    (hvals : ∀ v ∈ vals, 0 ≤ v)
    (htf : (totalFrames : ℚ) = T * fps) (hf : totalFrames < f) :
    animateBarLengths T fps vals f = animateBarLengths T fps vals totalFrames := by
  have h1 : animateBarLengths T fps vals totalFrames = vals := by
    refine animateBarLengths_saturated T fps vals totalFrames hT hn ?_
    rw [htf, mul_div_assoc, div_self hfps.ne', mul_one]
  have h2 : animateBarLengths T fps vals f = vals := by
    refine animateBarLengths_saturated T fps vals f hT hn ?_
    have hlt : T * fps < (f : ℚ) := by
      rw [← htf]; exact_mod_cast hf
    exact le_of_lt ((lt_div_iff hfps).mpr hlt)
  rw [h1, h2]

/-- C3 witness: concrete instance of the held-frame theorem. -/
theorem frame_clamp_holds_final_witness :
    animateBarLengths 1 1 [1] 2 = animateBarLengths 1 1 [1] 1 :=
  frame_clamp_holds_final 1 1 [1] 1 2 (by norm_num) (by norm_num) (by norm_num)
    (by intro v hv; rw [List.mem_singleton] at hv; rw [hv]; norm_num)
    (by norm_num) (by norm_num)

/-- C4: before a record's start time `(T / n) * i`, its bar length is
exactly 0. -/
theorem bar_zero_before_start (T fps : ℚ) (n i : ℕ) (val : ℚ) (f : ℕ)
    (hn : 0 < n) (h : (f : ℚ) / fps < (T / n) * i) :
    barLength T n i val ((f : ℚ) / fps) = 0 := by
  simp only [barLength]
  rw [if_neg (by rw [ge_iff_le, not_le]; exact h)]

/-- C4 witness: concrete instance of the zero-before-start theorem. -/
theorem bar_zero_before_start_witness :
    barLength 10 2 1 7 ((3 : ℕ) / (1 : ℚ)) = 0 :=
  bar_zero_before_start 10 1 2 1 7 3 (by norm_num) (by norm_num)

/-- C5: once the elapsed time `f / r` reaches a record's start time plus
the growth duration, the bar length equals the record's full value, and
at every frame the bar length never exceeds the value. -/
theorem bar_saturates_at_value (T fps : ℚ) (n i : ℕ) (val : ℚ)
    (hT : 0 < T) (hn : 0 < n) (hval : 0 ≤ val) :
    ∀ f : ℕ,
      ((T / n) * i + T / n ≤ (f : ℚ) / fps →
        barLength T n i val ((f : ℚ) / fps) = val)
      ∧ barLength T n i val ((f : ℚ) / fps) ≤ val := by
  intro f
  have hnq : (0 : ℚ) < (n : ℚ) := by exact_mod_cast hn
  exact ⟨fun h => barLength_saturate T n i val _ (div_pos hT hnq) h,
    barLength_le_val T n i val _ hval⟩

/-- C5 witness: concrete instance of the saturation theorem. -/
theorem bar_saturates_at_value_witness :
    barLength 2 2 0 5 ((3 : ℕ) / (1 : ℚ)) = 5 ∧
      barLength 2 2 0 5 ((3 : ℕ) / (1 : ℚ)) ≤ 5 := by
  have h := bar_saturates_at_value 2 1 2 0 5 (by norm_num) (by norm_num) (by norm_num) 3
  exact ⟨h.1 (by norm_num), h.2⟩

/-- Counting the indices of `range n` at or above a threshold. -/
lemma countP_range_le (n a : ℕ) :
    (List.range n).countP (fun i => decide (a ≤ i)) = n - a := by
  induction n with
  | zero => simp
  | succ n ih =>
    rw [List.range_succ, List.countP_append, ih]
    by_cases h : a ≤ n
    · simp only [List.countP_cons, List.countP_nil]
      rw [decide_eq_true h, if_pos rfl]
      omega
    · simp only [List.countP_cons, List.countP_nil]
      rw [decide_eq_false h, if_neg Bool.false_ne_true]
      omega

/-- Counting the indices of `range n` below a threshold. -/
lemma countP_range_lt (n a : ℕ) :
    (List.range n).countP (fun i => decide (i < a)) = min a n := by
  induction n with
  | zero => simp
  | succ n ih =>
    rw [List.range_succ, List.countP_append, ih]
    by_cases h : n < a
    · simp only [List.countP_cons, List.countP_nil]
      rw [decide_eq_true h, if_pos rfl]
      omega
    · simp only [List.countP_cons, List.countP_nil]
      rw [decide_eq_false h, if_neg Bool.false_ne_true]
      omega

/-- The two-tier color test at index `i` in ℤ agrees with the truncated
ℕ subtraction. -/
lemma barColor_eq_ite (n k i : ℕ) :
    barColor n (k : ℤ) i = if n - k ≤ i then "red" else "skyblue" := by
  by_cases h : (n : ℤ) - (k : ℤ) ≤ (i : ℤ)
  · have h2 : n - k ≤ i := by omega
    rw [barColor, if_pos (by exact_mod_cast h), if_pos h2]
  · have h2 : ¬ (n - k ≤ i) := by omega
    rw [barColor, if_neg (by exact_mod_cast h), if_neg h2]

/-- C7: in the static two-tier mode with `n` records and highlight count
`k`, exactly the records at sorted positions `i ≥ n - k` are red — that
is `min k n` many — all others are skyblue, and the color component of
the frame state does not depend on the frame number. -/
theorem two_tier_color_rule (n k : ℕ) :
    (∀ i, i < n → (animateBarColors (k : ℤ) n).getD i "" =
        if n - k ≤ i then "red" else "skyblue")
    ∧ (animateBarColors (k : ℤ) n).count "red" = min k n
    ∧ (animateBarColors (k : ℤ) n).count "skyblue" = n - min k n
    ∧ ∀ (T fps : ℚ) (df : List Record) (f1 f2 tf1 tf2 : ℕ),
        (animateFrame T fps (k : ℤ) df f1 tf1).2.1 =
          (animateFrame T fps (k : ℤ) df f2 tf2).2.1 := by
  refine ⟨?_, ?_, ?_, ?_⟩
  · intro i hi
    rw [animateBarColors, List.getD_eq_getElem?_getD, List.getElem?_map,
      List.getElem?_range hi]
    simp only [Option.map_some', Option.getD_some]
    exact barColor_eq_ite n k i
  · rw [animateBarColors, List.count_eq_countP, List.countP_map]
    have hp : ((fun x => x == "red") ∘ barColor n (k : ℤ))
        = fun i => decide (n - k ≤ i) := by
      funext i
      simp only [Function.comp, barColor_eq_ite n k i]
      by_cases h : n - k ≤ i
      · rw [if_pos h, decide_eq_true h]; rfl
      · rw [if_neg h, decide_eq_false h]; rfl
    rw [hp, countP_range_le]
    omega
  · rw [animateBarColors, List.count_eq_countP, List.countP_map]
    have hp : ((fun x => x == "skyblue") ∘ barColor n (k : ℤ))
        = fun i => decide (i < n - k) := by
      funext i
      simp only [Function.comp, barColor_eq_ite n k i]
      by_cases h : n - k ≤ i
      · rw [if_pos h, decide_eq_false (by omega : ¬ i < n - k)]; rfl
      · rw [if_neg h, decide_eq_true (by omega : i < n - k)]; rfl
    rw [hp, countP_range_lt]
    omega
  · intro T fps df f1 f2 tf1 tf2
    rfl

/-- C7 witness: concrete instance of the color-rule theorem with
`n = 3`, `k = 2`. -/
theorem two_tier_color_rule_witness :
    (animateBarColors ((2 : ℕ) : ℤ) 3).getD 1 "" = "red"
    ∧ (animateBarColors ((2 : ℕ) : ℤ) 3).count "red" = 2 := by
  refine ⟨?_, ?_⟩
  · have h := (two_tier_color_rule 3 2).1 1 (by norm_num)
    rw [h, if_pos (by norm_num)]
  · have h := (two_tier_color_rule 3 2).2.1
    rw [h]
    norm_num

/-- C8: on the empty dataset, at every frame, the checked frame-state
computation succeeds with an empty bar-length list, an empty color list
and an axis maximum of 0: the division by `len(df)` sits inside a loop
that never executes, and the empty-sequence maximum is guarded. -/
theorem empty_dataset_safe (f tf : ℕ) :
    animateChecked TOTAL_DURATION FPS RED_LIMIT [] f tf =
      Except.ok ([], [], 0) := by
  have h50 : (FPS : ℚ) ≠ 0 := by rw [FPS]; norm_num
  simp [animateChecked, pyDiv, h50, List.mapM, List.mapM.loop]

/-- C10: the frame-number clamp of anim.py lines 68-69 has no effect on
the computed frame state: the clamped variable is never read again
(elapsed time is taken from the unclamped frame number on line 67), so
the computation with the clamp removed is extensionally equal. -/
theorem clamp_has_no_effect (T fps : ℚ) (redLimit : ℤ) (df : List Record)
    (f tf : ℕ) :
    animateFrame T fps redLimit df f tf = animateFrameNoClamp T fps redLimit df f tf :=
  rfl

/-- C9: with nonnegative record values, every computed bar length `l`
satisfies `0 ≤ l ≤ value(i)`, at every frame. -/
theorem bar_length_bounds (T fps : ℚ) (vals : List ℚ) (f i : ℕ)
    (hT : 0 < T) (hn : 0 < vals.length) (hvals : ∀ v ∈ vals, 0 ≤ v) :
    0 ≤ (animateBarLengths T fps vals f).getD i 0 ∧
      (animateBarLengths T fps vals f).getD i 0 ≤ vals.getD i 0 := by
  rw [animateBarLengths_getD]
  by_cases h : i < vals.length
  · rw [dif_pos h]
    have hnq : (0 : ℚ) < (vals.length : ℚ) := by exact_mod_cast hn
    have hv : 0 ≤ vals[i] := hvals _ (vals.getElem_mem h)
    refine ⟨barLength_nonneg _ _ _ _ _ (div_pos hT hnq) hv, ?_⟩
    rw [List.getD_eq_getElem?_getD, List.getElem?_eq_getElem h, Option.getD_some]
    exact barLength_le_val _ _ _ _ _ hv
  · rw [dif_neg h]
    rw [List.getD_eq_getElem?_getD, List.getElem?_eq_none (le_of_not_lt h),
      Option.getD_none]
    exact ⟨le_refl 0, le_refl 0⟩

/-- C9 witness: concrete instance of the bounds theorem. -/
theorem bar_length_bounds_witness :
    0 ≤ (animateBarLengths 1 1 [1] 0).getD 0 0 ∧
      (animateBarLengths 1 1 [1] 0).getD 0 0 ≤ ([1] : List ℚ).getD 0 0 :=
  bar_length_bounds 1 1 [1] 0 0 (by norm_num) (by norm_num)
    (by intro v hv; rw [List.mem_singleton] at hv; rw [hv]; norm_num)
